import Mathlib

/-!
# Omni: redacted machine configuration controller and config-input reconciliation

A shallow embedding of

* `internal/backend/runtime/omni/controllers/omni/redacted_cluster_machine_config.go`
  (`MapMetadataFunc`, `UnmapMetadataFunc`, `TransformFunc` of the
  `RedactedClusterMachineConfigController`), and
* `internal/backend/runtime/omni/migration/helpers.go` (`reconcileConfigInputs`).

Go values are embedded as follows.

* A Go `error` is an `Option Error` (`none` is `nil`), a `(T, error)` result an
  `Except Error T`.
* A `[]byte` is a `Bytes`; a `[]byte` that may be `nil` is an `Option Bytes`
  (`none` is the nil slice, `some []` the empty non-nil slice).  A Go `string`
  holding arbitrary bytes is a `GoString`.
* Calls into external collaborators (the configuration codec, the resource
  store) are recorded in a call log next to the returned value, so that
  "does not call" is a statement about that log.
-/

namespace Omni

/-! ## Go values -/

/-- A Go `error` value that is not nil. `IsNotFoundError` recognises `notFound`. -/
inductive Error where
  | notFound
  | ownerConflict
  | phaseConflict
  | typeMismatch
  | failure (code : Nat)
deriving DecidableEq

/-- The test `state.IsNotFoundError(err)`. -/
def IsNotFoundError : Error → Bool
  | .notFound => true
  | _ => false

/-- A Go byte. -/
abbrev Byte := Fin 256

/-- A non-nil Go `[]byte`. -/
abbrev Bytes := List Byte

/-- A Go `string`, which is an immutable sequence of bytes; `""` is `[]`. -/
abbrev GoString := List Byte

/-- The Go conversion `string(b)` of a byte slice: the same bytes. -/
def string (b : Bytes) : GoString := b

/-! ## Resources -/

/-- The resource version kept by the store. -/
abbrev Version := Nat

/-- The method `Version.String()`. -/
def Version.String (v : Version) : String := toString v

/-- The method `Version.Next()`, used by the store on every committed write. -/
def Version.Next (v : Version) : Version := v + 1

/-- The resource types `reconcileConfigInputs` and the controller deal with. -/
inductive ResourceType where
  | ClusterMachineType
  | ClusterMachineConfigType
  | RedactedClusterMachineConfigType
  | ClusterSecretsType
  | LoadBalancerConfigType
  | ClusterType
  | ClusterMachineConfigPatchesType
  | MachineConfigGenOptionsType
deriving DecidableEq

/-- The lifecycle phase of a resource. -/
inductive Phase where
  | Running
  | TearingDown
deriving DecidableEq

/-- The part of `resource.Metadata` the code and the store read: namespace, identifier,
version, owner, phase and labels.  The resource type is fixed by the Go type of the
resource and is not stored here. -/
structure Metadata where
  ns : String
  id : String
  version : Version
  owner : String
  phase : Phase
  labels : List (String × String)
deriving DecidableEq

/-- The method `Metadata().ID()`. -/
def Metadata.ID (md : Metadata) : String := md.id

/-- The method `Metadata().Labels().Get(key)`: the value and whether it is set. -/
def Metadata.LabelsGet (md : Metadata) (key : String) : Option String :=
  md.labels.lookup key

/-- The metadata of a freshly constructed resource: `resource.NewMetadata(ns, typ, id,
resource.VersionUndefined)`: no owner, running, no labels. -/
def NewMetadata (ns id : String) : Metadata :=
  { ns := ns, id := id, version := 0, owner := "", phase := .Running, labels := [] }

/-- Modelled from the spec: the constant `resources.DefaultNamespace`, declared in the client
resources package: the namespace (logical partition) all resources named here live in.
No proof depends on its value. -/
def DefaultNamespace : String := "default"

/-- Modelled from the spec: the payload of the SourceConfigResource
("ClusterMachineConfig"), declared in the client resources package.  It holds
the raw configuration bytes (possibly absent), the input versions (for each dependency
kind the observed version) and the version of the triggering machine
("ClusterMachineVersion"). -/
structure ClusterMachineConfigSpec where
  Data : Option Bytes
  ClusterMachineVersion : String
  InputVersions : List (ResourceType × Version)
deriving DecidableEq

/-- The generated getter `GetData()`. -/
def ClusterMachineConfigSpec.GetData (v : ClusterMachineConfigSpec) : Option Bytes := v.Data

/-- Modelled from the spec: the payload of the DerivedResource
("RedactedClusterMachineConfig"), declared in the client resources package.
It holds exactly one field, the redacted configuration as a string. -/
structure RedactedClusterMachineConfigSpec where
  Data : GoString
deriving DecidableEq

/-- The typed resource `*omni.ClusterMachineConfig`. -/
structure ClusterMachineConfig where
  md : Metadata
  spec : ClusterMachineConfigSpec
deriving DecidableEq

/-- The typed resource `*omni.RedactedClusterMachineConfig`. -/
structure RedactedClusterMachineConfig where
  md : Metadata
  spec : RedactedClusterMachineConfigSpec
deriving DecidableEq

/-- The typed resource `*omni.ClusterMachine`; only its metadata is read. -/
structure ClusterMachine where
  md : Metadata
deriving DecidableEq

/-- Modelled from the spec: the constructor `omni.NewClusterMachineConfig(ns, id)`, declared
in the client resources package.  It builds the resource of that identity with an empty payload. -/
def NewClusterMachineConfig (ns id : String) : ClusterMachineConfig :=
  { md := NewMetadata ns id
    spec := { Data := none, ClusterMachineVersion := "", InputVersions := [] } }

/-- Modelled from the spec: the constructor `omni.NewRedactedClusterMachineConfig(ns, id)`,
declared in the client resources package.  It builds the resource of that identity with
an empty payload. -/
def NewRedactedClusterMachineConfig (ns id : String) : RedactedClusterMachineConfig :=
  { md := NewMetadata ns id, spec := { Data := [] } }

/-- The identity of a resource of a fixed type: namespace and identifier. -/
def Metadata.identity (md : Metadata) : String × String := (md.ns, md.id)

/-! ## The configuration codec (external) -/

/-- The argument of `encoder.WithComments`. -/
inductive CommentsFlags where
  | CommentsDisabled
  | CommentsExamples
  | CommentsDocs
  | CommentsAll
deriving DecidableEq

/-- An encoder option; the code passes `encoder.WithComments(encoder.CommentsDisabled)`. -/
inductive EncoderOption where
  | WithComments (flags : CommentsFlags)
deriving DecidableEq

/-- The external configuration codec the controller calls, over its own type `Config`
of parsed configurations: `configloader.NewFromBytes`, `config.RedactSecrets`,
`config.EncodeBytes`, and the replacement value `x509.Redacted`.  The functions are
pure, so the codec is deterministic. -/
structure Codec (Config : Type) where
  NewFromBytes : Bytes → Except Error Config
  RedactSecrets : Config → String → Config
  EncodeBytes : Config → EncoderOption → Except Error Bytes
  Redacted : String

/-- A call made to the codec. -/
inductive CodecCall where
  | NewFromBytes (source : Bytes)
  | RedactSecrets (replacement : String)
  | EncodeBytes (opt : EncoderOption)
deriving DecidableEq

/-! ## `redacted_cluster_machine_config.go` -/

/-- The setting `MapMetadataFunc`, lines 32-34. -/
def MapMetadataFunc (cmc : ClusterMachineConfig) : RedactedClusterMachineConfig :=
  NewRedactedClusterMachineConfig DefaultNamespace cmc.md.ID

/-- The setting `UnmapMetadataFunc`, lines 35-37. -/
def UnmapMetadataFunc (cmcr : RedactedClusterMachineConfig) : ClusterMachineConfig :=
  NewClusterMachineConfig DefaultNamespace cmcr.md.ID

/-- What a call of `TransformFunc` leaves behind: the returned error, the target resource
(which the function mutates through its pointer) and the codec calls made, in order. -/
structure TransformResult where
  err : Option Error
  cmcr : RedactedClusterMachineConfig
  calls : List CodecCall
deriving DecidableEq

/-- The setting `TransformFunc`, lines 38-60.  The context, reader and logger arguments
are ignored by the Go function and omitted. -/
def TransformFunc {Config : Type} (codec : Codec Config)
    (cmc : ClusterMachineConfig) (cmcr : RedactedClusterMachineConfig) : TransformResult :=
  let data := cmc.spec.GetData
  match data with
  | none =>
    { err := none, cmcr := { cmcr with spec := { cmcr.spec with Data := [] } }, calls := [] }
  | some source =>
    -- the second `cmc.TypedSpec().Value.GetData()` of line 47 reads the same slice
    match codec.NewFromBytes source with
    | .error err => { err := some err, cmcr := cmcr, calls := [.NewFromBytes source] }
    | .ok config =>
      let opt := EncoderOption.WithComments CommentsFlags.CommentsDisabled
      let calls := [CodecCall.NewFromBytes source, .RedactSecrets codec.Redacted,
        .EncodeBytes opt]
      match codec.EncodeBytes (codec.RedactSecrets config codec.Redacted) opt with
      | .error err => { err := some err, cmcr := cmcr, calls := calls }
      | .ok redactedData =>
        { err := none
          cmcr := { cmcr with spec := { cmcr.spec with Data := string redactedData } }
          calls := calls }

/-! ## The resource store (external) -/

/-- A resource reference `resource.Pointer`: namespace, type and identifier. -/
structure Pointer where
  ns : String
  typ : ResourceType
  id : String
deriving DecidableEq

/-- The typed payload of a stored resource.  Only the payload of a ClusterMachineConfig is
read or written by `reconcileConfigInputs`; of the other resources only the metadata is. -/
inductive Payload where
  | ClusterMachineConfig (v : ClusterMachineConfigSpec)
  | RedactedClusterMachineConfig (v : RedactedClusterMachineConfigSpec)
  | ClusterMachine
  | ClusterSecrets
  | LoadBalancerConfig
  | Cluster
  | ClusterMachineConfigPatches
  | MachineConfigGenOptions
deriving DecidableEq

/-- The resource type that goes with a payload. -/
def Payload.Type : Payload → ResourceType
  | .ClusterMachineConfig _ => .ClusterMachineConfigType
  | .RedactedClusterMachineConfig _ => .RedactedClusterMachineConfigType
  | .ClusterMachine => .ClusterMachineType
  | .ClusterSecrets => .ClusterSecretsType
  | .LoadBalancerConfig => .LoadBalancerConfigType
  | .Cluster => .ClusterType
  | .ClusterMachineConfigPatches => .ClusterMachineConfigPatchesType
  | .MachineConfigGenOptions => .MachineConfigGenOptionsType

/-- A `resource.Resource`: metadata and typed payload. -/
structure Resource where
  md : Metadata
  payload : Payload
deriving DecidableEq

/-- The resource type, `Metadata().Type()`. -/
def Resource.Type (r : Resource) : ResourceType := r.payload.Type

/-- The reference `Metadata()` of a resource, as the store reads it. -/
def Resource.Pointer (r : Resource) : Pointer :=
  { ns := r.md.ns, typ := r.Type, id := r.md.id }

/-- A ClusterMachineConfig as a `resource.Resource`. -/
def ClusterMachineConfig.Resource (c : ClusterMachineConfig) : Resource :=
  { md := c.md, payload := .ClusterMachineConfig c.spec }

/-- A ClusterMachine as a `resource.Resource`. -/
def ClusterMachine.Resource (m : ClusterMachine) : Resource :=
  { md := m.md, payload := .ClusterMachine }

/-- Modelled from the spec: the constructor `omni.NewClusterSecrets(ns, id)`, declared in the client
resources package; it builds the resource of that identity, of which only the metadata
is used. -/
def NewClusterSecrets (ns id : String) : Resource :=
  { md := NewMetadata ns id, payload := .ClusterSecrets }

/-- Modelled from the spec: the constructor `omni.NewLoadBalancerConfig(ns, id)`, declared in the client
resources package; it builds the resource of that identity, of which only the metadata
is used. -/
def NewLoadBalancerConfig (ns id : String) : Resource :=
  { md := NewMetadata ns id, payload := .LoadBalancerConfig }

/-- Modelled from the spec: the constructor `omni.NewCluster(ns, id)`, declared in the client
resources package; it builds the resource of that identity, of which only the metadata
is used. -/
def NewCluster (ns id : String) : Resource :=
  { md := NewMetadata ns id, payload := .Cluster }

/-- Modelled from the spec: the constructor `omni.NewClusterMachineConfigPatches(ns, id)`,
declared in the client resources package; it builds the resource of that identity, of
which only the metadata is used. -/
def NewClusterMachineConfigPatches (ns id : String) : Resource :=
  { md := NewMetadata ns id, payload := .ClusterMachineConfigPatches }

/-- Modelled from the spec: the constructor `omni.NewMachineConfigGenOptions(ns, id)`, declared in the client
resources package; it builds the resource of that identity, of which only the metadata
is used. -/
def NewMachineConfigGenOptions (ns id : String) : Resource :=
  { md := NewMetadata ns id, payload := .MachineConfigGenOptions }

/-- The external resource store `state.State`, seen from one sequential caller: the stored
resources, and the failures other than "not found" with which the store answers a read or
a write of a given resource (an unreachable backend, a cancelled context). -/
structure State where
  resources : List Resource
  getFaults : List (Pointer × Error)
  updateFaults : List (Pointer × Error)
deriving DecidableEq

/-- A call made to the store. -/
inductive StoreCall where
  | Get (ptr : Pointer)
  | Update (ptr : Pointer)
deriving DecidableEq

/-- The store operation `st.Get(ctx, ptr)`: the stored resource of that reference, the
"not found" error when there is none, or the failure the store answers with.  For a caller
a resource exists in the store when `Get` returns it, and is missing when `Get` answers
"not found". -/
def State.Get (st : State) (ptr : Pointer) : Except Error Resource :=
  match st.getFaults.lookup ptr with
  | some err => .error err
  | none =>
    match st.resources.find? (fun r => decide (r.Pointer = ptr)) with
    | some r => .ok r
    | none => .error .notFound

/-- Whether the fetch of `ptr` fails with an error other than "not found". -/
def State.fetchFails (st : State) (ptr : Pointer) : Bool :=
  match st.Get ptr with
  | .error err => !IsNotFoundError err
  | .ok _ => false

/-- The options of an update: `state.WithUpdateOwner` sets `Owner`,
`state.WithExpectedPhaseAny` clears `ExpectedPhase` (by default the running phase). -/
structure UpdateOptions where
  Owner : String
  ExpectedPhase : Option Phase
deriving DecidableEq

/-- The store operation `st.Update(ctx, newResource, opts...)`, called with a resource
derived from the currently stored one: the store rejects the write with the failure it
answers with, with "not found" when the resource is not stored, and with an owner conflict
when the stored resource has another owner than `opts.Owner`; otherwise it replaces the
stored resource and advances its version. -/
def State.Update (st : State) (newResource : Resource) (opts : UpdateOptions) :
    Except Error State :=
  match st.updateFaults.lookup newResource.Pointer with
  | some err => .error err
  | none =>
    match st.resources.find? (fun r => decide (r.Pointer = newResource.Pointer)) with
    | none => .error .notFound
    | some existing =>
      if existing.md.owner ≠ opts.Owner then .error .ownerConflict
      else
        let written : Resource :=
          { newResource with md := { newResource.md with version := existing.md.version.Next } }
        .ok { st with
          resources := st.resources.map
            (fun r => if r.Pointer = newResource.Pointer then written else r) }

/-- What an update leaves behind: the returned error, the store and the store calls made. -/
structure UpdateResult where
  err : Option Error
  st : State
  calls : List StoreCall
deriving DecidableEq

/-- The store helper `UpdateWithConflicts(ctx, ptr, updaterFunc, opts...)`: read the
current resource, check the expected phase, run `updaterFunc` on a copy, and write the copy
unless it is equal to the current resource.  With a single sequential caller no version
conflict arises between the read and the write, so the retry loop runs its body once. -/
def State.UpdateWithConflicts (st : State) (ptr : Pointer)
    (updaterFunc : Resource → Except Error Resource) (opts : UpdateOptions) : UpdateResult :=
  match st.Get ptr with
  | .error err => { err := some err, st := st, calls := [.Get ptr] }
  | .ok current =>
    if opts.ExpectedPhase.isSome ∧ opts.ExpectedPhase ≠ some current.md.phase then
      { err := some .phaseConflict, st := st, calls := [.Get ptr] }
    else
      match updaterFunc current with
      | .error err => { err := some err, st := st, calls := [.Get ptr] }
      | .ok newResource =>
        if newResource = current then { err := none, st := st, calls := [.Get ptr] }
        else
          match st.Update newResource opts with
          | .error err =>
            { err := some err, st := st, calls := [.Get ptr, .Update newResource.Pointer] }
          | .ok st1 =>
            { err := none, st := st1, calls := [.Get ptr, .Update newResource.Pointer] }

/-- The typed helper `safe.StateUpdateWithConflicts` at type ClusterMachineConfig: the
update function runs on the resource asserted to be a ClusterMachineConfig, and a resource
of another type is a type mismatch. -/
def StateUpdateWithConflicts (st : State) (ptr : Pointer)
    (updateFn : ClusterMachineConfig → Except Error ClusterMachineConfig)
    (opts : UpdateOptions) : UpdateResult :=
  st.UpdateWithConflicts ptr
    (fun r =>
      match r.payload with
      | .ClusterMachineConfig v =>
        match updateFn { md := r.md, spec := v } with
        | .error err => .error err
        | .ok c => .ok c.Resource
      | _ => .error .typeMismatch)
    opts

/-! ## `migration/helpers.go` -/

/-- Modelled from the spec: the key `omni.LabelCluster` of the cluster-name label, declared
in the client resources package.  No proof depends on its value. -/
def LabelCluster : String := "omni.sidero.dev/cluster"

/-- Modelled from the spec: the name of the ClusterMachineConfigController,
`omnictrl.NewClusterMachineConfigController(nil).Name()`, declared in the controllers
package: the owner identity under which `reconcileConfigInputs` writes.  No proof depends
on its value. -/
def ClusterMachineConfigControllerName : String := "ClusterMachineConfigController"

/-- Modelled from the spec: the helper `omnictrl.UpdateInputsVersions(out, inputs...)`,
declared in the controllers package outside the two files embedded here.  It computes the
composite version stamp, a mapping from each dependency kind to its individual version,
and writes it onto the input versions of `out`, replacing the whole map. -/
def UpdateInputsVersions (out : ClusterMachineConfig) (inputs : List Resource) :
    ClusterMachineConfig :=
  { out with
    spec := { out.spec with InputVersions := inputs.map (fun r => (r.Type, r.md.version)) } }

/-- The references of the dependency resources, lines 38-48: cluster secrets, the machine
itself, the load balancer config, the cluster, the config patches, and the machine config
generation options when `withGenOptions` is set. -/
def dependencies (item : ClusterMachine) (clusterName : String) (withGenOptions : Bool) :
    List Pointer :=
  let res := [
    (NewClusterSecrets DefaultNamespace clusterName).Pointer,
    item.Resource.Pointer,
    (NewLoadBalancerConfig DefaultNamespace clusterName).Pointer,
    (NewCluster DefaultNamespace clusterName).Pointer,
    (NewClusterMachineConfigPatches DefaultNamespace item.md.ID).Pointer]
  if withGenOptions then
    res ++ [(NewMachineConfigGenOptions DefaultNamespace item.md.ID).Pointer]
  else res

/-- The update function passed to `safe.StateUpdateWithConflicts`, lines 65-70: stamp the
input versions, record the version of `item`, return `nil`. -/
def stampConfig (item : ClusterMachine) (inputs : List Resource)
    (machineConfig : ClusterMachineConfig) : Except Error ClusterMachineConfig :=
  let stamped := UpdateInputsVersions machineConfig inputs
  .ok { stamped with
    spec := { stamped.spec with ClusterMachineVersion := item.md.version.String } }

/-- The update options of line 71: the owner is the ClusterMachineConfigController, any
phase is accepted. -/
def stampOptions : UpdateOptions :=
  { Owner := ClusterMachineConfigControllerName, ExpectedPhase := none }

/-- How the fetch loop of lines 52-63 ends: it makes the function return (with `nil` or
with an error), or it runs to completion with the fetched inputs. -/
inductive LoopExit where
  | returned (err : Option Error)
  | completed (inputs : List Resource)
deriving DecidableEq

/-- The fetch loop of lines 52-63 over the remaining references `res`, with the inputs
collected so far: the way the loop ends and the store calls made. -/
def fetchInputs (st : State) : List Pointer → List Resource → LoopExit × List StoreCall
  | [], inputs => (.completed inputs, [])
  | res :: rest, inputs =>
    match st.Get res with
    | .error err =>
      if IsNotFoundError err then (.returned none, [.Get res])
      else (.returned (some err), [.Get res])
    | .ok r =>
      let next := fetchInputs st rest (inputs ++ [r])
      (next.1, .Get res :: next.2)

/-- What a call of `reconcileConfigInputs` leaves behind: the returned error, the store and
the store calls made, in order. -/
structure ReconcileResult where
  err : Option Error
  st : State
  calls : List StoreCall
deriving DecidableEq

/-- The function `reconcileConfigInputs(ctx, st, item, withGenOptions)`, lines 20-74.  The
context only reaches the store, whose failures are part of `State`. -/
def reconcileConfigInputs (st : State) (item : ClusterMachine) (withGenOptions : Bool) :
    ReconcileResult :=
  let config := NewClusterMachineConfig DefaultNamespace item.md.ID
  match st.Get config.Resource.Pointer with
  | .error err =>
    if IsNotFoundError err then
      { err := none, st := st, calls := [.Get config.Resource.Pointer] }
    else
      { err := some err, st := st, calls := [.Get config.Resource.Pointer] }
  | .ok _ =>
    match item.md.LabelsGet LabelCluster with
    | none => { err := none, st := st, calls := [.Get config.Resource.Pointer] }
    | some clusterName =>
      let res := dependencies item clusterName withGenOptions
      match fetchInputs st res [] with
      | (.returned err, calls) =>
        { err := err, st := st, calls := .Get config.Resource.Pointer :: calls }
      | (.completed inputs, calls) =>
        let updated := StateUpdateWithConflicts st config.Resource.Pointer
          (stampConfig item inputs) stampOptions
        { err := updated.err, st := updated.st
          calls := .Get config.Resource.Pointer :: (calls ++ updated.calls) }

/-! ## Concrete inputs -/

/-- A small codec over byte lists: parsing rejects the empty input, redaction replaces
every byte 7 by 0, encoding rejects configurations longer than three bytes. -/
def sampleCodec : Codec Bytes where
  NewFromBytes source := if source = [] then .error (.failure 1) else .ok source
  RedactSecrets config _ := config.map (fun b => if b = 7 then 0 else b)
  EncodeBytes config _ := if 3 < config.length then .error (.failure 2) else .ok config
  Redacted := "REDACTED"

/-- Metadata in the default namespace without owner and labels. -/
def sampleMetadata (id : String) (version : Version) : Metadata :=
  { ns := DefaultNamespace, id := id, version := version, owner := "", phase := .Running,
    labels := [] }

/-- A ClusterMachineConfig "m1" with the given data. -/
def sampleConfig (data : Option Bytes) : ClusterMachineConfig :=
  { md := { sampleMetadata "m1" 3 with owner := ClusterMachineConfigControllerName }
    spec := { Data := data, ClusterMachineVersion := "5", InputVersions := [] } }

/-- The ClusterMachine "m1" at version 7, labelled with the cluster "c1" or unlabelled. -/
def sampleMachine (labelled : Bool) : ClusterMachine :=
  { md := { sampleMetadata "m1" 7 with
      labels := if labelled then [(LabelCluster, "c1")] else [] } }

/-- The five dependencies of the machine "m1" of cluster "c1" as stored resources, at the
versions 11, 8, 12, 13, 14. -/
def sampleDependencies : List Resource :=
  [ { md := sampleMetadata "c1" 11, payload := .ClusterSecrets },
    { md := sampleMetadata "m1" 8, payload := .ClusterMachine },
    { md := sampleMetadata "c1" 12, payload := .LoadBalancerConfig },
    { md := sampleMetadata "c1" 13, payload := .Cluster },
    { md := sampleMetadata "m1" 14, payload := .ClusterMachineConfigPatches } ]

/-- A store holding the ClusterMachineConfig "m1" and its five dependencies, without
failures. -/
def sampleState : State :=
  { resources := (sampleConfig (some [1])).Resource :: sampleDependencies
    getFaults := [], updateFaults := [] }

/-- A store holding the five dependencies of "m1" but no ClusterMachineConfig. -/
def sampleStateNoConfig : State :=
  { resources := sampleDependencies, getFaults := [], updateFaults := [] }

/-- The sample store without the stored Cluster "c1", and in which the fetch of the
cluster secrets fails. -/
def sampleStateFailingSecrets : State :=
  { resources := (sampleConfig (some [1])).Resource :: sampleDependencies.take 3
    getFaults := [((NewClusterSecrets DefaultNamespace "c1").Pointer, .failure 1)]
    updateFaults := [] }

/-- The sample store without the stored Cluster "c1". -/
def sampleStateNoCluster : State :=
  { resources := (sampleConfig (some [1])).Resource :: sampleDependencies.take 3
    getFaults := [], updateFaults := [] }

/-- The sample store in which the fetch of the ClusterMachineConfig "m1" fails. -/
def sampleStateFailingConfig : State :=
  { sampleState with
    getFaults := [((NewClusterMachineConfig DefaultNamespace "m1").Resource.Pointer,
      .failure 3)] }

/-- The sample store in which the fetch of the load balancer config fails. -/
def sampleStateFailingLoadBalancer : State :=
  { sampleState with
    getFaults := [((NewLoadBalancerConfig DefaultNamespace "c1").Pointer, .failure 4)] }

/-- The sample store in which the write of the ClusterMachineConfig "m1" fails. -/
def sampleStateFailingUpdate : State :=
  { sampleState with
    updateFaults := [((NewClusterMachineConfig DefaultNamespace "m1").Resource.Pointer,
      .failure 5)] }

/-- A RedactedClusterMachineConfig "m1" holding the bytes 9, 9 from an earlier run. -/
def sampleRedacted : RedactedClusterMachineConfig :=
  { md := sampleMetadata "m1" 1, spec := { Data := [9, 9] } }

/-! ## The metadata maps -/

/-- The round trip through both maps keeps the identifier of any argument and lands in the
default namespace. -/
theorem unmap_map_md (x : ClusterMachineConfig) :
    (UnmapMetadataFunc (MapMetadataFunc x)).md.identity = (DefaultNamespace, x.md.id) := by
  rfl

/-- Claim C1: for every valid source identity x, that is the namespace and identifier of a
ClusterMachineConfig of the default namespace (where every ClusterMachineConfig is
created), `UnmapMetadataFunc (MapMetadataFunc x)` has the identity of x; and both maps read
only the identity of their argument, never its payload: arguments of equal identity are
mapped to the same resource. -/
theorem unmap_map_identity (x : ClusterMachineConfig) (hvalid : x.md.ns = DefaultNamespace) :
    (UnmapMetadataFunc (MapMetadataFunc x)).md.identity = x.md.identity
    ∧ (∀ y : ClusterMachineConfig, y.md.identity = x.md.identity →
        MapMetadataFunc y = MapMetadataFunc x)
    ∧ (∀ t u : RedactedClusterMachineConfig, t.md.identity = u.md.identity →
        UnmapMetadataFunc t = UnmapMetadataFunc u) := by
  refine ⟨?_, ?_, ?_⟩
  · rw [unmap_map_md, Metadata.identity, hvalid]
  · intro y hy
    have hid : y.md.id = x.md.id := congrArg Prod.snd hy
    simp [MapMetadataFunc, Metadata.ID, hid]
  · intro t u htu
    have hid : t.md.id = u.md.id := congrArg Prod.snd htu
    simp [UnmapMetadataFunc, Metadata.ID, hid]

/-- The round trip of claim C1 at the ClusterMachineConfig "m1" of the default namespace. -/
theorem unmap_map_identity_witness :
    (sampleConfig (some [1, 7])).md.ns = DefaultNamespace
    ∧ (UnmapMetadataFunc (MapMetadataFunc (sampleConfig (some [1, 7])))).md.identity
        = (sampleConfig (some [1, 7])).md.identity :=
  ⟨rfl, (unmap_map_identity (sampleConfig (some [1, 7])) rfl).1⟩

/-! ## The transform -/

/-- Claim C2: for every source whose data is present and for which the parse and the
encode of the codec both succeed, `TransformFunc` returns no error and sets the Data of
the target to exactly `string(encode(redactSecrets(parse(data), x509.Redacted)))` with
comments disabled, whatever the Data of the target was before. -/
theorem transform_present_ok {Config : Type} (codec : Codec Config)
    (cmc : ClusterMachineConfig) (cmcr : RedactedClusterMachineConfig)
    (data : Bytes) (config : Config) (redactedData : Bytes)
    (hdata : cmc.spec.Data = some data)
    (hparse : codec.NewFromBytes data = .ok config)
    (hencode : codec.EncodeBytes (codec.RedactSecrets config codec.Redacted)
      (.WithComments .CommentsDisabled) = .ok redactedData) :
    (TransformFunc codec cmc cmcr).err = none
    ∧ (TransformFunc codec cmc cmcr).cmcr.spec.Data = string redactedData
    ∧ (TransformFunc codec cmc cmcr).cmcr.md = cmcr.md := by
  simp [TransformFunc, ClusterMachineConfigSpec.GetData, hdata, hparse, hencode]

/-- Claim C2 at the data 1, 7 with the sample codec: the target receives 1, 0. -/
theorem transform_present_ok_witness :
    (sampleConfig (some [1, 7])).spec.Data = some [1, 7]
    ∧ sampleCodec.NewFromBytes [1, 7] = .ok [1, 7]
    ∧ sampleCodec.EncodeBytes (sampleCodec.RedactSecrets [1, 7] sampleCodec.Redacted)
        (.WithComments .CommentsDisabled) = .ok [1, 0]
    ∧ (TransformFunc sampleCodec (sampleConfig (some [1, 7])) sampleRedacted).err = none
    ∧ (TransformFunc sampleCodec (sampleConfig (some [1, 7])) sampleRedacted).cmcr.spec.Data
        = string [1, 0] :=
  ⟨rfl, rfl, rfl,
    (transform_present_ok sampleCodec (sampleConfig (some [1, 7])) sampleRedacted
      [1, 7] [1, 7] [1, 0] rfl rfl rfl).1,
    (transform_present_ok sampleCodec (sampleConfig (some [1, 7])) sampleRedacted
      [1, 7] [1, 7] [1, 0] rfl rfl rfl).2.1⟩

/-- Claim C3 as stated fails: the source whose data is the empty, non-nil byte slice has
zero-length data, yet `TransformFunc` passes it to the parser of the codec, and with a
codec that rejects the empty input it returns that error and leaves the old Data 9, 9 of
the target in place. -/
theorem transform_empty_data_counterexample :
    (sampleConfig (some [])).spec.Data = some []
    ∧ (TransformFunc sampleCodec (sampleConfig (some [])) sampleRedacted).calls
        = [CodecCall.NewFromBytes []]
    ∧ (TransformFunc sampleCodec (sampleConfig (some [])) sampleRedacted).err
        = some (Error.failure 1)
    ∧ (TransformFunc sampleCodec (sampleConfig (some [])) sampleRedacted).cmcr.spec.Data
        = [9, 9] := by
  decide

/-- Claim C3, amended: for every source whose payload data is absent (the nil slice) and
for every prior target, `TransformFunc` returns no error, makes no call to the codec and
leaves the Data of the target equal to the empty string. -/
theorem transform_absent_data {Config : Type} (codec : Codec Config)
    (cmc : ClusterMachineConfig) (cmcr : RedactedClusterMachineConfig)
    (hdata : cmc.spec.Data = none) :
    (TransformFunc codec cmc cmcr).err = none
    ∧ (TransformFunc codec cmc cmcr).calls = []
    ∧ (TransformFunc codec cmc cmcr).cmcr.spec.Data = []
    ∧ (TransformFunc codec cmc cmcr).cmcr.md = cmcr.md := by
  simp [TransformFunc, ClusterMachineConfigSpec.GetData, hdata]

/-- The amended claim C3 at the source without data and a target holding 9, 9. -/
theorem transform_absent_data_witness :
    (sampleConfig none).spec.Data = none
    ∧ (TransformFunc sampleCodec (sampleConfig none) sampleRedacted).err = none
    ∧ (TransformFunc sampleCodec (sampleConfig none) sampleRedacted).calls = []
    ∧ (TransformFunc sampleCodec (sampleConfig none) sampleRedacted).cmcr.spec.Data = [] :=
  ⟨rfl, (transform_absent_data sampleCodec (sampleConfig none) sampleRedacted rfl).1,
    (transform_absent_data sampleCodec (sampleConfig none) sampleRedacted rfl).2.1,
    (transform_absent_data sampleCodec (sampleConfig none) sampleRedacted rfl).2.2.1⟩

/-- Claim C6: for every source and every initial target, running `TransformFunc` a second
time on the target left by the first run, with the same source and the same codec, yields
the same result (error or success) and the same target Data as the first run; it also
makes the same codec calls and leaves the same target. -/
theorem transform_idempotent {Config : Type} (codec : Codec Config)
    (cmc : ClusterMachineConfig) (cmcr : RedactedClusterMachineConfig) :
    (TransformFunc codec cmc (TransformFunc codec cmc cmcr).cmcr).err
      = (TransformFunc codec cmc cmcr).err
    ∧ (TransformFunc codec cmc (TransformFunc codec cmc cmcr).cmcr).cmcr.spec.Data
      = (TransformFunc codec cmc cmcr).cmcr.spec.Data
    ∧ TransformFunc codec cmc (TransformFunc codec cmc cmcr).cmcr
      = TransformFunc codec cmc cmcr := by
  have h : TransformFunc codec cmc (TransformFunc codec cmc cmcr).cmcr
      = TransformFunc codec cmc cmcr := by
    unfold TransformFunc
    cases hd : cmc.spec.GetData with
    | none => simp
    | some source =>
      simp only
      cases hp : codec.NewFromBytes source with
      | error err => simp
      | ok config =>
        simp only
        cases he : codec.EncodeBytes (codec.RedactSecrets config codec.Redacted)
            (.WithComments .CommentsDisabled) with
        | error err => simp
        | ok redactedData => simp
  exact ⟨by rw [h], by rw [h], h⟩

/-- Claim C7: for every source with present data, if the parse of the codec fails, or the
encode of the redacted configuration fails, `TransformFunc` returns that same error and
leaves the target, and so its Data, exactly as it was before the call. -/
theorem transform_error_no_write {Config : Type} (codec : Codec Config)
    (cmc : ClusterMachineConfig) (cmcr : RedactedClusterMachineConfig)
    (data : Bytes) (err : Error)
    (hdata : cmc.spec.Data = some data)
    (hfail : codec.NewFromBytes data = .error err
      ∨ ∃ config, codec.NewFromBytes data = .ok config
        ∧ codec.EncodeBytes (codec.RedactSecrets config codec.Redacted)
          (.WithComments .CommentsDisabled) = .error err) :
    (TransformFunc codec cmc cmcr).err = some err
    ∧ (TransformFunc codec cmc cmcr).cmcr.spec.Data = cmcr.spec.Data
    ∧ (TransformFunc codec cmc cmcr).cmcr = cmcr := by
  rcases hfail with hparse | ⟨config, hparse, hencode⟩
  · simp [TransformFunc, ClusterMachineConfigSpec.GetData, hdata, hparse]
  · simp [TransformFunc, ClusterMachineConfigSpec.GetData, hdata, hparse, hencode]

/-- Claim C7 with the sample codec: the empty data fails to parse and the data 1, 2, 3, 4
fails to encode; both errors are returned and the target keeps its Data 9, 9. -/
theorem transform_error_no_write_witness :
    (sampleCodec.NewFromBytes [] = .error (Error.failure 1)
      ∧ sampleCodec.EncodeBytes (sampleCodec.RedactSecrets [1, 2, 3, 4] sampleCodec.Redacted)
          (.WithComments .CommentsDisabled) = .error (Error.failure 2))
    ∧ ((TransformFunc sampleCodec (sampleConfig (some [])) sampleRedacted).err
        = some (Error.failure 1)
      ∧ (TransformFunc sampleCodec (sampleConfig (some [])) sampleRedacted).cmcr.spec.Data
        = [9, 9])
    ∧ ((TransformFunc sampleCodec (sampleConfig (some [1, 2, 3, 4])) sampleRedacted).err
        = some (Error.failure 2)
      ∧ (TransformFunc sampleCodec (sampleConfig (some [1, 2, 3, 4])) sampleRedacted).cmcr.spec.Data
        = [9, 9]) :=
  ⟨⟨rfl, rfl⟩,
    ⟨(transform_error_no_write sampleCodec (sampleConfig (some [])) sampleRedacted
        [] (Error.failure 1) rfl (Or.inl rfl)).1,
      (transform_error_no_write sampleCodec (sampleConfig (some [])) sampleRedacted
        [] (Error.failure 1) rfl (Or.inl rfl)).2.1⟩,
    ⟨(transform_error_no_write sampleCodec (sampleConfig (some [1, 2, 3, 4])) sampleRedacted
        [1, 2, 3, 4] (Error.failure 2) rfl (Or.inr ⟨[1, 2, 3, 4], rfl, rfl⟩)).1,
      (transform_error_no_write sampleCodec (sampleConfig (some [1, 2, 3, 4])) sampleRedacted
        [1, 2, 3, 4] (Error.failure 2) rfl (Or.inr ⟨[1, 2, 3, 4], rfl, rfl⟩)).2.1⟩⟩

/-! ## The store -/

/-- A fetched resource has the reference it was fetched by. -/
theorem State.Get_ok_pointer {st : State} {ptr : Pointer} {r : Resource}
    (h : st.Get ptr = .ok r) : r.Pointer = ptr := by
  unfold State.Get at h
  split at h
  · cases h
  · split at h
    · next r1 hfind =>
      cases h
      simpa using List.find?_some hfind
    · cases h

/-- The fetch loop over references that are all fetched: it completes with the fetched
resources appended to the inputs, after one `Get` per reference. -/
theorem fetchInputs_completed (st : State) {ps : List Pointer} {rs : List Resource}
    (h : List.Forall₂ (fun p r => st.Get p = .ok r) ps rs) (inputs : List Resource) :
    fetchInputs st ps inputs = (.completed (inputs ++ rs), ps.map StoreCall.Get) := by
  induction h generalizing inputs with
  | nil => simp [fetchInputs]
  | cons hp _ ih => simp [fetchInputs, hp, ih]

/-- The fetch loop whose first failing fetch is that of `p`: it makes the function return,
with `nil` for "not found" and with the error otherwise, after the calls up to that fetch. -/
theorem fetchInputs_returned (st : State) {pre : List Pointer} {rs : List Resource}
    (h : List.Forall₂ (fun p r => st.Get p = .ok r) pre rs) (p : Pointer)
    (post : List Pointer) (err : Error) (hp : st.Get p = .error err)
    (inputs : List Resource) :
    fetchInputs st (pre ++ p :: post) inputs
      = (.returned (if IsNotFoundError err then none else some err),
          (pre ++ [p]).map StoreCall.Get) := by
  induction h generalizing inputs with
  | nil =>
    by_cases hnf : IsNotFoundError err = true <;> simp [fetchInputs, hp, hnf]
  | cons hq _ ih => simp [fetchInputs, hq, ih]

/-- Every list of references is either fetched completely, or splits at its first failing
fetch. -/
theorem fetch_cases (st : State) (ps : List Pointer) :
    (∃ rs, List.Forall₂ (fun p r => st.Get p = .ok r) ps rs)
    ∨ ∃ pre p post rs err, ps = pre ++ p :: post
        ∧ List.Forall₂ (fun p r => st.Get p = .ok r) pre rs ∧ st.Get p = .error err := by
  induction ps with
  | nil => exact Or.inl ⟨[], List.Forall₂.nil⟩
  | cons q qs ih =>
    cases hq : st.Get q with
    | error err => exact Or.inr ⟨[], q, qs, [], err, rfl, List.Forall₂.nil, hq⟩
    | ok r =>
      rcases ih with ⟨rs, hrs⟩ | ⟨pre, p, post, rs, err, hsplit, hpre, hp⟩
      · exact Or.inl ⟨r :: rs, List.Forall₂.cons hq hrs⟩
      · exact Or.inr ⟨q :: pre, p, post, r :: rs, err, by simp [hsplit],
          List.Forall₂.cons hq hpre, hp⟩

/-- An update that returns an error leaves the store as it was. -/
theorem UpdateWithConflicts_error_st (st : State) (ptr : Pointer)
    (updaterFunc : Resource → Except Error Resource) (opts : UpdateOptions) (err : Error)
    (h : (st.UpdateWithConflicts ptr updaterFunc opts).err = some err) :
    (st.UpdateWithConflicts ptr updaterFunc opts).st = st := by
  unfold State.UpdateWithConflicts at h ⊢
  split
  · rfl
  · split
    · rfl
    · split
      · rfl
      · split
        · rfl
        · split
          · rfl
          · next hupd =>
            simp_all

/-- A reference that belongs to a completely fetched list is fetched. -/
theorem fetched_of_mem (st : State) {ps : List Pointer} {rs : List Resource}
    (h : List.Forall₂ (fun p r => st.Get p = .ok r) ps rs) {p : Pointer} (hp : p ∈ ps) :
    ∃ r, st.Get p = .ok r := by
  induction h with
  | nil => cases hp
  | cons hq _ ih =>
    rcases List.mem_cons.mp hp with rfl | hmem
    · exact ⟨_, hq⟩
    · exact ih hmem

/-- The fetched resources have the types of the references they were fetched by. -/
theorem fetched_types (st : State) {ps : List Pointer} {rs : List Resource}
    (h : List.Forall₂ (fun p r => st.Get p = .ok r) ps rs) :
    rs.map Resource.Type = ps.map Pointer.typ := by
  induction h with
  | nil => rfl
  | cons hq _ ih =>
    have hptr := State.Get_ok_pointer hq
    simp only [List.map_cons, ih]
    rw [← hptr]
    rfl

/-- Replacing the resources of the reference `ptr` by `written`, itself of that reference,
makes `written` the resource found under `ptr`, when one was found before. -/
theorem find_replaced (ptr : Pointer) (written : Resource) (hw : written.Pointer = ptr) :
    ∀ (l : List Resource) (existing : Resource),
      l.find? (fun r => decide (r.Pointer = ptr)) = some existing →
      (l.map (fun r => if r.Pointer = ptr then written else r)).find?
        (fun r => decide (r.Pointer = ptr)) = some written := by
  intro l
  induction l with
  | nil => intro existing h; simp at h
  | cons a l ih =>
    intro existing h
    by_cases ha : a.Pointer = ptr
    · simp [ha, hw]
    · simp only [List.find?_cons, ha, decide_False] at h
      simp only [List.map_cons, ha, if_false, List.find?_cons, decide_False]
      exact ih existing h

/-- A committed write is read back: after `Update` of a resource whose reference could be
fetched, the fetch of that reference returns the written resource, at some version. -/
theorem State.Update_Get {st st1 : State} {newResource current : Resource}
    {opts : UpdateOptions} (hupdate : st.Update newResource opts = .ok st1)
    (hget : st.Get newResource.Pointer = .ok current) :
    ∃ version, st1.Get newResource.Pointer
      = .ok { newResource with md := { newResource.md with version := version } } := by
  unfold State.Update at hupdate
  split at hupdate
  · cases hupdate
  · split at hupdate
    · cases hupdate
    · next existing hfind =>
      split at hupdate
      · cases hupdate
      · cases hupdate
        refine ⟨existing.md.version.Next, ?_⟩
        unfold State.Get at hget ⊢
        split at hget
        · cases hget
        · next hfault =>
          simp only [hfault]
          rw [find_replaced newResource.Pointer
            { newResource with
              md := { newResource.md with version := existing.md.version.Next } }
            rfl st.resources existing hfind]

/-- The calls of the stamping update of a fetched ClusterMachineConfig: one fetch, followed
by at most one write, both of the reference of the ClusterMachineConfig. -/
theorem stamp_update_calls (st : State) (ptr : Pointer) (item : ClusterMachine)
    (inputs : List Resource) (current : Resource) (hget : st.Get ptr = .ok current) :
    (StateUpdateWithConflicts st ptr (stampConfig item inputs) stampOptions).calls
        = [.Get ptr]
    ∨ (StateUpdateWithConflicts st ptr (stampConfig item inputs) stampOptions).calls
        = [.Get ptr, .Update ptr] := by
  have hptr := State.Get_ok_pointer hget
  unfold StateUpdateWithConflicts State.UpdateWithConflicts
  simp only [hget, stampOptions, Option.isSome_none, Bool.false_eq_true, false_and, if_false]
  cases hpay : current.payload with
  | ClusterMachineConfig v =>
    have hnew : ∀ c : ClusterMachineConfig, c.md = current.md → c.Resource.Pointer = ptr := by
      intro c hc
      rw [← hptr]
      simp [ClusterMachineConfig.Resource, Resource.Pointer, Resource.Type, Payload.Type,
        hc, hpay]
    simp only [stampConfig, UpdateInputsVersions]
    split
    · exact Or.inl rfl
    · rw [hnew _ rfl]
      split
      · exact Or.inr rfl
      · exact Or.inr rfl
  | _ => exact Or.inl rfl

/-- The stamping update of a fetched ClusterMachineConfig that returns no error leaves a
store in which the ClusterMachineConfig carries the stamp: the input versions computed
from `inputs` and the version of the trigger. -/
theorem stamp_update_ok (st : State) (ptr : Pointer) (item : ClusterMachine)
    (inputs : List Resource) (current : Resource) (hget : st.Get ptr = .ok current)
    (hok : (StateUpdateWithConflicts st ptr (stampConfig item inputs) stampOptions).err
      = none) :
    ∃ cfg : ClusterMachineConfig,
      (StateUpdateWithConflicts st ptr (stampConfig item inputs) stampOptions).st.Get ptr
        = .ok cfg.Resource
      ∧ cfg.spec.InputVersions = inputs.map (fun r => (r.Type, r.md.version))
      ∧ cfg.spec.ClusterMachineVersion = item.md.version.String := by
  have hptr := State.Get_ok_pointer hget
  unfold StateUpdateWithConflicts State.UpdateWithConflicts at hok ⊢
  simp only [hget, stampOptions, Option.isSome_none, Bool.false_eq_true, false_and,
    if_false] at hok ⊢
  cases hpay : current.payload with
  | ClusterMachineConfig v =>
    obtain ⟨c, hc, hmd, hversions, hmachine⟩ :
        ∃ c, stampConfig item inputs { md := current.md, spec := v } = .ok c
          ∧ c.md = current.md
          ∧ c.spec.InputVersions = inputs.map (fun r => (r.Type, r.md.version))
          ∧ c.spec.ClusterMachineVersion = item.md.version.String :=
      ⟨_, rfl, rfl, rfl, rfl⟩
    have hnew : c.Resource.Pointer = ptr := by
      rw [← hptr]
      simp [ClusterMachineConfig.Resource, Resource.Pointer, Resource.Type, Payload.Type,
        hmd, hpay]
    simp only [hpay, hc] at hok ⊢
    split at hok
    · next heq =>
      simp only [heq, if_true]
      exact ⟨c, by rw [hget, ← heq], hversions, hmachine⟩
    · next hne =>
      simp only [hne, if_false]
      split at hok
      · cases hok
      · next st1 hupdate =>
        simp only [hupdate]
        have hget1 := hget
        rw [← hnew] at hget1
        obtain ⟨version, hread⟩ := State.Update_Get hupdate hget1
        rw [hnew] at hread
        exact ⟨{ md := { c.md with version := version }, spec := c.spec }, hread,
          hversions, hmachine⟩
  | _ => simp [hpay] at hok

/-! ## `reconcileConfigInputs` -/

/-- The fetch of the ClusterMachineConfig fails: the function returns at once, with `nil`
for "not found" and with the error otherwise. -/
theorem reconcile_config_error (st : State) (item : ClusterMachine) (withGenOptions : Bool)
    (err : Error)
    (hconfig : st.Get (NewClusterMachineConfig DefaultNamespace item.md.ID).Resource.Pointer
      = .error err) :
    reconcileConfigInputs st item withGenOptions
      = { err := if IsNotFoundError err then none else some err, st := st
          calls := [.Get (NewClusterMachineConfig DefaultNamespace item.md.ID).Resource.Pointer] } := by
  by_cases hnf : IsNotFoundError err = true <;> simp [reconcileConfigInputs, hconfig, hnf]

/-- The fetch of a dependency fails after the dependencies before it were fetched: the
function returns there, with `nil` for "not found" and with the error otherwise, and the
store calls are the fetches made so far. -/
theorem reconcile_returned (st : State) (item : ClusterMachine) (withGenOptions : Bool)
    (config : Resource) (clusterName : String) (pre : List Pointer) (p : Pointer)
    (post : List Pointer) (rs : List Resource) (err : Error)
    (hconfig : st.Get (NewClusterMachineConfig DefaultNamespace item.md.ID).Resource.Pointer
      = .ok config)
    (hlabel : item.md.LabelsGet LabelCluster = some clusterName)
    (hsplit : dependencies item clusterName withGenOptions = pre ++ p :: post)
    (hpre : List.Forall₂ (fun p r => st.Get p = .ok r) pre rs)
    (hp : st.Get p = .error err) :
    reconcileConfigInputs st item withGenOptions
      = { err := if IsNotFoundError err then none else some err, st := st
          calls := .Get (NewClusterMachineConfig DefaultNamespace item.md.ID).Resource.Pointer
            :: (pre ++ [p]).map StoreCall.Get } := by
  simp only [reconcileConfigInputs, hconfig, hlabel, hsplit,
    fetchInputs_returned st hpre p post err hp []]

/-- All dependencies are fetched: the function returns what the update returns. -/
theorem reconcile_completed (st : State) (item : ClusterMachine) (withGenOptions : Bool)
    (config : Resource) (clusterName : String) (rs : List Resource)
    (hconfig : st.Get (NewClusterMachineConfig DefaultNamespace item.md.ID).Resource.Pointer
      = .ok config)
    (hlabel : item.md.LabelsGet LabelCluster = some clusterName)
    (hdeps : List.Forall₂ (fun p r => st.Get p = .ok r)
      (dependencies item clusterName withGenOptions) rs) :
    reconcileConfigInputs st item withGenOptions
      = { err := (StateUpdateWithConflicts st
            (NewClusterMachineConfig DefaultNamespace item.md.ID).Resource.Pointer
            (stampConfig item rs) stampOptions).err
          st := (StateUpdateWithConflicts st
            (NewClusterMachineConfig DefaultNamespace item.md.ID).Resource.Pointer
            (stampConfig item rs) stampOptions).st
          calls := .Get (NewClusterMachineConfig DefaultNamespace item.md.ID).Resource.Pointer
            :: ((dependencies item clusterName withGenOptions).map StoreCall.Get
              ++ (StateUpdateWithConflicts st
                (NewClusterMachineConfig DefaultNamespace item.md.ID).Resource.Pointer
                (stampConfig item rs) stampOptions).calls) } := by
  simp only [reconcileConfigInputs, hconfig, hlabel, fetchInputs_completed st hdeps [],
    List.nil_append]

/-- Claim C9: for every store in which no ClusterMachineConfig exists with the identifier
of the trigger in the default namespace (the store answers the fetch with "not found"),
`reconcileConfigInputs` returns success, makes no store call besides that one fetch, so
fetches no dependency, and leaves the store unchanged, for either value of
`withGenOptions` and whatever the labels of the trigger. -/
theorem reconcile_config_absent (st : State) (item : ClusterMachine) (withGenOptions : Bool)
    (habsent : st.Get (NewClusterMachineConfig DefaultNamespace item.md.ID).Resource.Pointer
      = .error .notFound) :
    (reconcileConfigInputs st item withGenOptions).err = none
    ∧ (reconcileConfigInputs st item withGenOptions).st = st
    ∧ (reconcileConfigInputs st item withGenOptions).calls
      = [.Get (NewClusterMachineConfig DefaultNamespace item.md.ID).Resource.Pointer] := by
  simp [reconcileConfigInputs, habsent, IsNotFoundError]

/-- Claim C9 on the store without ClusterMachineConfig, for the labelled machine "m1". -/
theorem reconcile_config_absent_witness :
    sampleStateNoConfig.Get
        (NewClusterMachineConfig DefaultNamespace (sampleMachine true).md.ID).Resource.Pointer
      = .error .notFound
    ∧ (reconcileConfigInputs sampleStateNoConfig (sampleMachine true) true).err = none
    ∧ (reconcileConfigInputs sampleStateNoConfig (sampleMachine true) true).st
      = sampleStateNoConfig :=
  ⟨rfl,
    (reconcile_config_absent sampleStateNoConfig (sampleMachine true) true (rfl)).1,
    (reconcile_config_absent sampleStateNoConfig (sampleMachine true) true (rfl)).2.1⟩

/-- Claim C10: for every store in which the ClusterMachineConfig of the trigger exists and
every trigger that carries no cluster label, `reconcileConfigInputs` returns success,
makes no store call besides the fetch of the ClusterMachineConfig, so fetches no
dependency, and leaves the store unchanged. -/
theorem reconcile_no_cluster_label (st : State) (item : ClusterMachine)
    (withGenOptions : Bool) (config : Resource)
    (hconfig : st.Get (NewClusterMachineConfig DefaultNamespace item.md.ID).Resource.Pointer
      = .ok config)
    (hlabel : item.md.LabelsGet LabelCluster = none) :
    (reconcileConfigInputs st item withGenOptions).err = none
    ∧ (reconcileConfigInputs st item withGenOptions).st = st
    ∧ (reconcileConfigInputs st item withGenOptions).calls
      = [.Get (NewClusterMachineConfig DefaultNamespace item.md.ID).Resource.Pointer] := by
  simp [reconcileConfigInputs, hconfig, hlabel]

/-- Claim C10 on the sample store, for the unlabelled machine "m1". -/
theorem reconcile_no_cluster_label_witness :
    sampleState.Get
        (NewClusterMachineConfig DefaultNamespace (sampleMachine false).md.ID).Resource.Pointer
      = .ok (sampleConfig (some [1])).Resource
    ∧ (sampleMachine false).md.LabelsGet LabelCluster = none
    ∧ (reconcileConfigInputs sampleState (sampleMachine false) false).err = none
    ∧ (reconcileConfigInputs sampleState (sampleMachine false) false).st = sampleState :=
  ⟨rfl, rfl,
    (reconcile_no_cluster_label sampleState (sampleMachine false) false
      (sampleConfig (some [1])).Resource (rfl) (rfl)).1,
    (reconcile_no_cluster_label sampleState (sampleMachine false) false
      (sampleConfig (some [1])).Resource (rfl) (rfl)).2.1⟩

/-- Claim C5 as stated fails: in the store below the Cluster "c1", a dependency of the
machine "m1", is missing, yet `reconcileConfigInputs` does not return success: the fetch
of the cluster secrets, made before the missing dependency is reached, fails, and that
error is returned. -/
theorem reconcile_missing_dependency_counterexample :
    (NewCluster DefaultNamespace "c1").Pointer ∈ dependencies (sampleMachine true) "c1" false
    ∧ sampleStateFailingSecrets.Get (NewCluster DefaultNamespace "c1").Pointer
        = .error .notFound
    ∧ (reconcileConfigInputs sampleStateFailingSecrets (sampleMachine true) false).err
        = some (Error.failure 1) :=
  ⟨by decide, rfl, rfl⟩

/-- Claim C5, amended: for every store and every trigger with a cluster label, if any one of
the dependency resources is missing from the store, `reconcileConfigInputs` performs no
update and leaves the store unchanged; it returns success when no fetch, of the
ClusterMachineConfig or of a dependency, fails with an error other than "not found", and an
error it returns is such an error of a fetch it made. -/
theorem reconcile_missing_dependency (st : State) (item : ClusterMachine)
    (withGenOptions : Bool) (clusterName : String) (p : Pointer)
    (hlabel : item.md.LabelsGet LabelCluster = some clusterName)
    (hmem : p ∈ dependencies item clusterName withGenOptions)
    (hmissing : st.Get p = .error .notFound) :
    (reconcileConfigInputs st item withGenOptions).st = st
    ∧ (∀ q, StoreCall.Update q ∉ (reconcileConfigInputs st item withGenOptions).calls)
    ∧ ((∀ q ∈ (NewClusterMachineConfig DefaultNamespace item.md.ID).Resource.Pointer
            :: dependencies item clusterName withGenOptions,
          st.fetchFails q = false) →
        (reconcileConfigInputs st item withGenOptions).err = none)
    ∧ (∀ err, (reconcileConfigInputs st item withGenOptions).err = some err →
        IsNotFoundError err = false
        ∧ ∃ q, StoreCall.Get q ∈ (reconcileConfigInputs st item withGenOptions).calls
          ∧ st.Get q = .error err) := by
  cases hconfig : st.Get (NewClusterMachineConfig DefaultNamespace item.md.ID).Resource.Pointer with
  | error cerr =>
    rw [reconcile_config_error st item withGenOptions cerr hconfig]
    refine ⟨rfl, by simp, ?_, ?_⟩
    · intro hfetch
      have hnf := hfetch _ (List.mem_cons_self _ _)
      simp only [State.fetchFails, hconfig, Bool.not_eq_false_eq_eq_true] at hnf
      simp [hnf]
    · intro err herr
      by_cases hnf : IsNotFoundError cerr = true
      · simp [hnf] at herr
      · simp only [hnf] at herr
        cases herr
        exact ⟨by simpa using hnf, _, List.mem_cons_self _ _, hconfig⟩
  | ok config =>
    rcases fetch_cases st (dependencies item clusterName withGenOptions) with
      ⟨rs, hrs⟩ | ⟨pre, p1, post, rs, derr, hsplit, hpre, hp1⟩
    · obtain ⟨r, hr⟩ := fetched_of_mem st hrs hmem
      rw [hmissing] at hr
      cases hr
    · rw [reconcile_returned st item withGenOptions config clusterName pre p1 post rs derr
        hconfig hlabel hsplit hpre hp1]
      refine ⟨rfl, by simp, ?_, ?_⟩
      · intro hfetch
        have hnf := hfetch p1 (List.mem_cons_of_mem _ (by simp [hsplit]))
        simp only [State.fetchFails, hp1, Bool.not_eq_false_eq_eq_true] at hnf
        simp [hnf]
      · intro err herr
        by_cases hnf : IsNotFoundError derr = true
        · simp [hnf] at herr
        · simp only [hnf] at herr
          cases herr
          exact ⟨by simpa using hnf, p1, by simp, hp1⟩

/-- The amended claim C5 on the stores without the Cluster "c1": with the failing fetch of
the cluster secrets nothing is written, and without failing fetch the result is success. -/
theorem reconcile_missing_dependency_witness :
    ((sampleMachine true).md.LabelsGet LabelCluster = some "c1"
      ∧ (NewCluster DefaultNamespace "c1").Pointer ∈ dependencies (sampleMachine true) "c1" true
      ∧ sampleStateNoCluster.Get (NewCluster DefaultNamespace "c1").Pointer = .error .notFound
      ∧ sampleStateFailingSecrets.Get (NewCluster DefaultNamespace "c1").Pointer
          = .error .notFound)
    ∧ (reconcileConfigInputs sampleStateFailingSecrets (sampleMachine true) true).st
        = sampleStateFailingSecrets
    ∧ (reconcileConfigInputs sampleStateNoCluster (sampleMachine true) true).st
        = sampleStateNoCluster
    ∧ (reconcileConfigInputs sampleStateNoCluster (sampleMachine true) true).err = none :=
  ⟨⟨rfl, by decide, rfl, rfl⟩,
    (reconcile_missing_dependency sampleStateFailingSecrets (sampleMachine true) true "c1"
      (NewCluster DefaultNamespace "c1").Pointer rfl (by decide) rfl).1,
    (reconcile_missing_dependency sampleStateNoCluster (sampleMachine true) true "c1"
      (NewCluster DefaultNamespace "c1").Pointer rfl (by decide) rfl).1,
    (reconcile_missing_dependency sampleStateNoCluster (sampleMachine true) true "c1"
      (NewCluster DefaultNamespace "c1").Pointer rfl (by decide) rfl).2.2.1
      (by decide)⟩

/-- Claim C8: for every store and trigger, if the fetch of the ClusterMachineConfig fails
with an error other than "not found", or the fetch of a dependency does after the
dependencies before it were fetched, or the final update fails, `reconcileConfigInputs`
returns that error unchanged and leaves the store unchanged; a failing fetch is the last
store call, followed by no retry and no write, and a failing update is made once. -/
theorem reconcile_error_propagates (st : State) (item : ClusterMachine)
    (withGenOptions : Bool) :
    (∀ err,
      st.Get (NewClusterMachineConfig DefaultNamespace item.md.ID).Resource.Pointer
        = .error err →
      IsNotFoundError err = false →
      reconcileConfigInputs st item withGenOptions
        = { err := some err, st := st
            calls := [.Get (NewClusterMachineConfig DefaultNamespace item.md.ID).Resource.Pointer] })
    ∧ (∀ config clusterName pre p post rs err,
      st.Get (NewClusterMachineConfig DefaultNamespace item.md.ID).Resource.Pointer
        = .ok config →
      item.md.LabelsGet LabelCluster = some clusterName →
      dependencies item clusterName withGenOptions = pre ++ p :: post →
      List.Forall₂ (fun p r => st.Get p = .ok r) pre rs →
      st.Get p = .error err →
      IsNotFoundError err = false →
      reconcileConfigInputs st item withGenOptions
        = { err := some err, st := st
            calls := .Get (NewClusterMachineConfig DefaultNamespace item.md.ID).Resource.Pointer
              :: (pre ++ [p]).map StoreCall.Get })
    ∧ (∀ config clusterName rs err,
      st.Get (NewClusterMachineConfig DefaultNamespace item.md.ID).Resource.Pointer
        = .ok config →
      item.md.LabelsGet LabelCluster = some clusterName →
      List.Forall₂ (fun p r => st.Get p = .ok r)
        (dependencies item clusterName withGenOptions) rs →
      (StateUpdateWithConflicts st
        (NewClusterMachineConfig DefaultNamespace item.md.ID).Resource.Pointer
        (stampConfig item rs) stampOptions).err = some err →
      (reconcileConfigInputs st item withGenOptions).err = some err
      ∧ (reconcileConfigInputs st item withGenOptions).st = st
      ∧ ∃ written, written.length ≤ 1
        ∧ (∀ call ∈ written, call
            = .Update (NewClusterMachineConfig DefaultNamespace item.md.ID).Resource.Pointer)
        ∧ (reconcileConfigInputs st item withGenOptions).calls
          = .Get (NewClusterMachineConfig DefaultNamespace item.md.ID).Resource.Pointer
            :: ((dependencies item clusterName withGenOptions).map StoreCall.Get
              ++ .Get (NewClusterMachineConfig DefaultNamespace item.md.ID).Resource.Pointer
                :: written)) := by
  refine ⟨?_, ?_, ?_⟩
  · intro err hconfig hnf
    rw [reconcile_config_error st item withGenOptions err hconfig]
    simp [hnf]
  · intro config clusterName pre p post rs err hconfig hlabel hsplit hpre hp hnf
    rw [reconcile_returned st item withGenOptions config clusterName pre p post rs err
      hconfig hlabel hsplit hpre hp]
    simp [hnf]
  · intro config clusterName rs err hconfig hlabel hdeps hupdate
    rw [reconcile_completed st item withGenOptions config clusterName rs hconfig hlabel hdeps]
    refine ⟨hupdate, ?_, ?_⟩
    · exact UpdateWithConflicts_error_st st _ _ _ err hupdate
    · rcases stamp_update_calls st _ item rs config hconfig with hcalls | hcalls
      · exact ⟨[], by simp, by simp, by rw [hcalls]⟩
      · exact ⟨[.Update (NewClusterMachineConfig DefaultNamespace item.md.ID).Resource.Pointer],
          by simp, by simp, by rw [hcalls]⟩

/-- Claim C8 on three stores: the fetch of the ClusterMachineConfig fails, the fetch of the
load balancer config fails after two fetched dependencies, and the write fails. -/
theorem reconcile_error_propagates_witness :
    (reconcileConfigInputs sampleStateFailingConfig (sampleMachine true) false
      = { err := some (Error.failure 3), st := sampleStateFailingConfig
          calls := [.Get (NewClusterMachineConfig DefaultNamespace "m1").Resource.Pointer] })
    ∧ (reconcileConfigInputs sampleStateFailingLoadBalancer (sampleMachine true) false
      = { err := some (Error.failure 4), st := sampleStateFailingLoadBalancer
          calls := [.Get (NewClusterMachineConfig DefaultNamespace "m1").Resource.Pointer,
            .Get (NewClusterSecrets DefaultNamespace "c1").Pointer,
            .Get (sampleMachine true).Resource.Pointer,
            .Get (NewLoadBalancerConfig DefaultNamespace "c1").Pointer] })
    ∧ ((reconcileConfigInputs sampleStateFailingUpdate (sampleMachine true) false).err
        = some (Error.failure 5)
      ∧ (reconcileConfigInputs sampleStateFailingUpdate (sampleMachine true) false).st
        = sampleStateFailingUpdate) :=
  ⟨(reconcile_error_propagates sampleStateFailingConfig (sampleMachine true) false).1
      (Error.failure 3) rfl rfl,
    (reconcile_error_propagates sampleStateFailingLoadBalancer (sampleMachine true) false).2.1
      (sampleConfig (some [1])).Resource "c1"
      [(NewClusterSecrets DefaultNamespace "c1").Pointer, (sampleMachine true).Resource.Pointer]
      (NewLoadBalancerConfig DefaultNamespace "c1").Pointer
      [(NewCluster DefaultNamespace "c1").Pointer,
        (NewClusterMachineConfigPatches DefaultNamespace "m1").Pointer]
      (sampleDependencies.take 2) (Error.failure 4) rfl rfl rfl
      (List.Forall₂.cons rfl (List.Forall₂.cons rfl List.Forall₂.nil)) rfl rfl,
    ((reconcile_error_propagates sampleStateFailingUpdate (sampleMachine true) false).2.2
      (sampleConfig (some [1])).Resource "c1" sampleDependencies (Error.failure 5) rfl rfl
      (List.Forall₂.cons rfl (List.Forall₂.cons rfl (List.Forall₂.cons rfl
        (List.Forall₂.cons rfl (List.Forall₂.cons rfl List.Forall₂.nil))))) rfl).1,
    ((reconcile_error_propagates sampleStateFailingUpdate (sampleMachine true) false).2.2
      (sampleConfig (some [1])).Resource "c1" sampleDependencies (Error.failure 5) rfl rfl
      (List.Forall₂.cons rfl (List.Forall₂.cons rfl (List.Forall₂.cons rfl
        (List.Forall₂.cons rfl (List.Forall₂.cons rfl List.Forall₂.nil))))) rfl).2.1⟩

/-- Claim C4: for every store in which the ClusterMachineConfig of the trigger exists, the
trigger carries a cluster label, and every dependency (cluster secrets, the machine itself,
load balancer config, cluster, config patches, and the machine config generation options
exactly when `withGenOptions` is set) is present, fetched as `rs`: after
`reconcileConfigInputs` succeeds, the input versions of the stored ClusterMachineConfig
are exactly those computed from the ordered list of the fetched resources, one entry of
kind and version per dependency whatever the map held before, and its
ClusterMachineVersion is the version of the trigger. -/
theorem reconcile_stamps_inputs (st : State) (item : ClusterMachine) (withGenOptions : Bool)
    (config : Resource) (clusterName : String) (rs : List Resource)
    (hconfig : st.Get (NewClusterMachineConfig DefaultNamespace item.md.ID).Resource.Pointer
      = .ok config)
    (hlabel : item.md.LabelsGet LabelCluster = some clusterName)
    (hdeps : List.Forall₂ (fun p r => st.Get p = .ok r)
      (dependencies item clusterName withGenOptions) rs)
    (hok : (reconcileConfigInputs st item withGenOptions).err = none) :
    ∃ cfg : ClusterMachineConfig,
      (reconcileConfigInputs st item withGenOptions).st.Get
          (NewClusterMachineConfig DefaultNamespace item.md.ID).Resource.Pointer
        = .ok cfg.Resource
      ∧ cfg.spec.InputVersions = rs.map (fun r => (r.Type, r.md.version))
      ∧ cfg.spec.InputVersions.map Prod.fst
        = [.ClusterSecretsType, .ClusterMachineType, .LoadBalancerConfigType, .ClusterType,
            .ClusterMachineConfigPatchesType]
          ++ (if withGenOptions then [.MachineConfigGenOptionsType] else [])
      ∧ cfg.spec.InputVersions.map Prod.snd = rs.map (fun r => r.md.version)
      ∧ cfg.spec.ClusterMachineVersion = item.md.version.String := by
  rw [reconcile_completed st item withGenOptions config clusterName rs hconfig hlabel hdeps]
    at hok ⊢
  obtain ⟨cfg, hread, hversions, hmachine⟩ := stamp_update_ok st _ item rs config hconfig hok
  refine ⟨cfg, hread, hversions, ?_, ?_, hmachine⟩
  · have htypes := fetched_types st hdeps
    rw [hversions, List.map_map]
    change rs.map Resource.Type = _
    rw [htypes]
    cases withGenOptions <;> rfl
  · rw [hversions, List.map_map]
    rfl

/-- Claim C4 on the sample store: the ClusterMachineConfig "m1" is stamped with the
versions 11, 8, 12, 13, 14 of its five dependencies and the version 7 of the trigger. -/
theorem reconcile_stamps_inputs_witness :
    (reconcileConfigInputs sampleState (sampleMachine true) false).err = none
    ∧ ∃ cfg : ClusterMachineConfig,
      (reconcileConfigInputs sampleState (sampleMachine true) false).st.Get
          (NewClusterMachineConfig DefaultNamespace "m1").Resource.Pointer
        = .ok cfg.Resource
      ∧ cfg.spec.InputVersions
        = [(.ClusterSecretsType, 11), (.ClusterMachineType, 8), (.LoadBalancerConfigType, 12),
            (.ClusterType, 13), (.ClusterMachineConfigPatchesType, 14)]
      ∧ cfg.spec.ClusterMachineVersion = Version.String 7 :=
  ⟨by decide,
    (reconcile_stamps_inputs sampleState (sampleMachine true) false
      (sampleConfig (some [1])).Resource "c1" sampleDependencies rfl rfl
      (List.Forall₂.cons rfl (List.Forall₂.cons rfl (List.Forall₂.cons rfl
        (List.Forall₂.cons rfl (List.Forall₂.cons rfl List.Forall₂.nil)))))
      (by decide)).imp (fun _ h => ⟨h.1, h.2.1, h.2.2.2.2⟩)⟩

end Omni
